import Mathlib

/-!
# Verification of the lit-walk reference manager core logic

Shallow embedding of `src/litwalk/litwalk.py` (class `LitWalk`): the
BibTeX import/deduplication pipeline (`import_bibtex`, `get_md5s`,
`add_articles`, `_get_note_path`), the random/filtered selection logic
(`walk`, `get_random`, `get_filtered`) and the activity log
(`update_activity`).

Modelling conventions:
* Python `str` values are Lean `String`s; the Python string methods used
  by the code (`lower`, `strip`, `capitalize`, single-character
  `replace`, `split`, `join`, substring `in`) are modelled by
  list-of-character functions below, ASCII-faithful.
* The sqlite database is a pair of lists (`articles`, `activity`);
  `INTEGER PRIMARY KEY` id assignment is `max id + 1`.
* `hashlib.md5(...).hexdigest()` is an uninterpreted parameter
  `hf : String → String` applied to the hashed text; the code hashes
  `(title + abstract).encode("utf-8")`, modelled as `title ++ abstract`.
* `random.randint` / `random.sample` draws are explicit `Nat` parameters.
* Fallible steps (`raise`, `IndexError`, non-termination of the
  note-path `while` loop) are `Except String` / `Option` with fuel.
-/

namespace LitWalk

/-! ## Python string primitives -/

/-- Python `s.lower()` (ASCII model). -/
def pyLower (s : String) : String := String.mk (s.data.map Char.toLower)

/-- Python `s.strip()`: remove leading and trailing whitespace. -/
def pyStrip (s : String) : String :=
  String.mk (((s.data.dropWhile Char.isWhitespace).reverse.dropWhile
      Char.isWhitespace).reverse)

/-- Python `s.replace(a, b)` for one-character `a`, `b`. -/
def replaceChar (a b : Char) (s : String) : String :=
  String.mk (s.data.map (fun c => if c = a then b else c))

/-- Python `s.capitalize()`: first character uppercased, rest lowercased. -/
def pyCapitalize (s : String) : String :=
  match s.data with
  | [] => ""
  | c :: cs => String.mk (c.toUpper :: cs.map Char.toLower)

/-- Splitting a character list at a separator character, Python
`str.split(sep)` semantics: `""` splits to `[""]`, empty pieces kept. -/
def splitChar (sep : Char) : List Char → List (List Char)
  | [] => [[]]
  | c :: rest =>
    if c = sep then [] :: splitChar sep rest
    else
      match splitChar sep rest with
      | [] => [[c]]
      | h :: t => (c :: h) :: t

/-- Python `s.split(sep)` for a one-character separator. -/
def pySplit (sep : Char) (s : String) : List String :=
  (splitChar sep s.data).map String.mk

/-- Python `sep.join(xs)`. -/
def pyJoin (sep : String) : List String → String
  | [] => ""
  | [x] => x
  | x :: y :: t => x ++ sep ++ pyJoin sep (y :: t)

/-- Tests that `needle` is a prefix of `hay` (character lists). -/
def listStartsWith : List Char → List Char → Bool
  | [], _ => true
  | _ :: _, [] => false
  | a :: as, b :: bs => a = b && listStartsWith as bs

/-- Python substring test `needle in hay` (contiguous occurrence). -/
def listIsSub (needle : List Char) : List Char → Bool
  | [] => needle.isEmpty
  | b :: bs => listStartsWith needle (b :: bs) || listIsSub needle bs

/-- Python `needle in hay` on strings. -/
def pyInStr (needle hay : String) : Bool := listIsSub needle.data hay.data

/-- Python `c in s` for a single character. -/
def pyHasChar (c : Char) (s : String) : Bool := s.data.contains c

/-- Model of `os.path.join(d, p)` for the shapes arising here. -/
def pathJoin (d p : String) : String :=
  if p.data.head? = some '/' then p
  else if d.data.getLast? = some '/' then d ++ p
  else d ++ "/" ++ p

/-! ## Data model -/

/-- A parsed BibTeX entry (`bibtex.entries` element): a partial map from
field names to strings.  Only the fields the import pipeline inspects are
modelled; `md5` and `note` are the keys `import_bibtex` adds to the dict
while processing (absent, i.e. `none`, in a freshly parsed entry). -/
structure Entry where
  title : Option String := none
  abstract : Option String := none
  author : Option String := none
  keywords : Option String := none
  year : Option String := none
  md5 : Option String := none
  note : Option String := none
  deriving Repr, DecidableEq

/-- A row of the `articles` table (columns relevant to the claims;
the remaining pass-through columns carry no logic). -/
structure Article where
  id : Nat
  title : Option String := none
  abstract : Option String := none
  note : Option String := none
  keywords : Option String := none
  author : Option String := none
  year : Option String := none
  md5 : Option String := none
  deriving Repr, DecidableEq

/-- A row of the `activity` table (`date` column, a wall-clock
timestamp, is not modelled). -/
structure ActivityRow where
  entity_id : Nat
  action : Nat
  deriving Repr, DecidableEq

/-- Database state: `articles` and `activity` tables. -/
structure DB where
  articles : List Article
  activity : List ActivityRow
  deriving Repr, DecidableEq

/-- Result record of the selection functions (`ArticleResult`). -/
structure ArticleResult where
  article : Article
  num_included : Nat
  num_total : Nat
  deriving Repr, DecidableEq

/-- Activity code `ACTIVITY_ADD`. -/
def ACTIVITY_ADD : Nat := 0

/-- Activity code `ACTIVITY_WALK`. -/
def ACTIVITY_WALK : Nat := 5

end LitWalk

namespace LitWalk

/-! ## `LitWalk` operations -/

/-- Model of `get_md5s`: `SELECT md5 FROM articles` — the `md5` column values
(`NULL` included) of the articles table. -/
def get_md5s (arts : List Article) : List (Option String) :=
  arts.map (fun a => a.md5)

/-- Model of `num_articles`: `SELECT COUNT(id) FROM articles` (`id` is the
non-null primary key, so this is the row count; `dev_mode` off). -/
def num_articles (db : DB) : Nat := db.articles.length

/-- Model of `update_activity`: append one row to the `activity` table. -/
def update_activity (db : DB) (entity_id : Nat) (action : Nat) : DB :=
  { db with activity := db.activity ++ [⟨entity_id, action⟩] }

/-- Query `SELECT * FROM articles WHERE id={i}`. -/
def selectById (arts : List Article) (i : Nat) : List Article :=
  arts.filter (fun a => a.id = i)

/-- Model of `get_random`, with the `random.randint(1, num_articles)` draw passed
in as `ind`.  Raises `"No articles found!"` on an empty table; the
`fetchall()[0]` indexing raises `IndexError` when no row has id `ind`. -/
def get_random (db : DB) (ind : Nat) : Except String ArticleResult :=
  if num_articles db = 0 then Except.error "No articles found!"
  else
    match selectById db.articles ind with
    | [] => Except.error "IndexError: list index out of range"
    | a :: _ =>
      Except.ok { article := a
                  num_included := num_articles db
                  num_total := num_articles db }

/-- One search field test of `get_filtered`:
`article[field] is not None and search in article[field].lower()`. -/
def fieldMatch (search : String) (f : Option String) : Bool :=
  match f with
  | none => false
  | some s => pyInStr search (pyLower s)

/-- The four fields scanned by `get_filtered`, in loop order. -/
def searchFields (a : Article) : List (Option String) :=
  [a.abstract, a.author, a.keywords, a.title]

/-- The `filtered` list built by `get_filtered`'s nested loop: the
article is appended once per matching field. -/
def filteredList (search : String) (arts : List Article) : List Article :=
  (arts.map (fun a =>
    ((searchFields a).filter (fieldMatch search)).map (fun _ => a))).flatten

/-- Model of `get_filtered`, with the `random.sample(filtered, 1)[0]` draw passed
in as index `k`; drawing from an empty population raises `ValueError`. -/
def get_filtered (db : DB) (search : String) (k : Nat) :
    Except String ArticleResult :=
  let s := pyLower search
  let filtered := filteredList s db.articles
  match filtered.get? k with
  | none => Except.error "ValueError: sample larger than population"
  | some a =>
    Except.ok { article := a
                num_included := filtered.length
                num_total := db.articles.length }

/-- Model of `walk`: select (randomly or filtered by the search phrase), then log
the access; on an exception the activity table is left untouched. -/
def walk (db : DB) (search : String) (rnd : Nat) :
    Except String ArticleResult × DB :=
  match (if search = "" then get_random db rnd else get_filtered db search rnd) with
  | Except.error e => (Except.error e, db)
  | Except.ok r => (Except.ok r, update_activity db r.article.id ACTIVITY_WALK)

/-! ## Note paths (`_get_note_path`) -/

/-- Characters kept by `re.sub(r"(?u)[^-\w.]", "", path)`: word
characters, `-` and `.` (ASCII model of `\w`). -/
def keepChar (c : Char) : Bool :=
  c.isAlphanum || c = '_' || c = '-' || c = '.'

/-- The sanitisation in `_get_note_path`: `strip()`, spaces and newlines
to underscores, then drop every character that is not a word character,
`-` or `.`. -/
def sanitizePath (s : String) : String :=
  String.mk ((replaceChar '\n' '_' (replaceChar ' ' '_' (pyStrip s))).data.filter
    keepChar)

/-- The note path before the `.md` extension:
`os.path.join(dir_, path)` with `dir_`/`path` as computed from the
article's `author`, `year` and `title` fields.  `none` models the
`IndexError` of `first_author[0]` on an empty first author. -/
def noteStem (e : Entry) : Option String :=
  let year := e.year.getD ""
  let title := e.title.getD ""
  match e.author with
  | some author =>
    let fa := pyCapitalize ((pySplit ',' author).headD "")
    match fa.data with
    | [] => none
    | c :: _ =>
      some (pathJoin (String.mk [c]) (sanitizePath (fa ++ year ++ "_" ++ title)))
  | none => some (pathJoin "Unknown" (sanitizePath (year ++ "_" ++ title)))

/-- The initial candidate path: stem plus `".md"` extension. -/
def baseNotePath (e : Entry) : Option String :=
  (noteStem e).map (fun st => st ++ ".md")

/-- Query `SELECT COUNT(id) FROM articles WHERE note='p'`. -/
def countNote (arts : List Article) (p : String) : Nat :=
  (arts.filter (fun a => a.note = some p)).length

/-- Model of `re.sub(r"\.md$", c + ".md", p)`: when `p` ends in `".md"`, insert
`c` before that extension; otherwise leave `p` unchanged. -/
def reSubMdEnd (c : Char) (p : String) : String :=
  if p.data.reverse.take 3 = ['d', 'm', '.'] then
    String.mk (p.data.take (p.data.length - 3) ++ [c, '.', 'm', 'd'])
  else p

/-- The `while num_matches > 0` loop of `_get_note_path`, with fuel.
The loop variable `i` is initialised to `0` and never incremented, so
every iteration retries `string.ascii_lowercase[0] = 'a'`; the loop exits
only when the `'a'`-suffixed path is unused. -/
def noteSuffixLoop (arts : List Article) (path : String) : Nat → Option String
  | 0 => none
  | fuel + 1 =>
    let alt := reSubMdEnd 'a' path
    if countNote arts alt = 0 then some alt
    else noteSuffixLoop arts path fuel

/-- Model of `_get_note_path` with fuel for the collision loop: `none` models a
Python exception or a non-terminating loop. -/
def get_note_path (arts : List Article) (e : Entry) (fuel : Nat) :
    Option String :=
  match baseNotePath e with
  | none => none
  | some path =>
    if countNote arts path = 0 then some path
    else noteSuffixLoop arts path fuel

/-! ## Import pipeline (`import_bibtex`, `add_articles`) -/

/-- The hashed text of an entry: `title + abstract` with a missing field
contributing `""` (`article.get("title", "")` etc.). -/
def hashText (e : Entry) : String := e.title.getD "" ++ e.abstract.getD ""

/-- Step 1 of `import_bibtex`: keep the entries that have a `title` or
an `abstract` field. -/
def keepTitled (entries : List Entry) : List Entry :=
  entries.filter (fun e => e.title.isSome || e.abstract.isSome)

/-- Step 2: `article['md5'] = hashlib.md5((title + abstract).encode("utf-8")).hexdigest()`,
with the digest function `hf` a parameter of the model. -/
def assignMd5 (hf : String → String) (e : Entry) : Entry :=
  { e with md5 := some (hf (hashText e)) }

/-- Steps 1–3: parsed entries surviving the title/abstract filter, with
fingerprints, minus those whose fingerprint is already among `existing`
(`x['md5'] not in existing_md5s`). -/
def newEntries (hf : String → String) (entries : List Entry)
    (existing : List (Option String)) : List Entry :=
  ((keepTitled entries).map (assignMd5 hf)).filter
    (fun e => decide (e.md5 ∉ existing))

/-- Step 4: `article["note"] = self._get_note_path(article, cursor)` for
each remaining entry (the table is not modified during this loop). -/
def assignNotes (arts : List Article) (fuel : Nat) :
    List Entry → Option (List Entry)
  | [] => some []
  | e :: rest =>
    match get_note_path arts e fuel with
    | none => none
    | some p =>
      match assignNotes arts fuel rest with
      | none => none
      | some rest' => some ({ e with note := some p } :: rest')

/-- The newline-to-space normalisation applied by `add_articles` to the
`title`, `abstract`, `author` and `keywords` fields. -/
def stripNewlines (s : String) : String := replaceChar '\n' ' ' s

/-- The keyword loop of `add_articles`: split on `";"`, strip and
lowercase each keyword, drop those containing `"/"`, re-join with
`"; "`. -/
def normalizeKeywords (s : String) : String :=
  pyJoin "; " (((pySplit ';' s).map (fun k => pyLower (pyStrip k))).filter
    (fun k => !pyHasChar '/' k))

/-- Largest id in the articles table (0 when empty); sqlite assigns
`max + 1` to a fresh `INTEGER PRIMARY KEY` row. -/
def maxId (arts : List Article) : Nat :=
  arts.foldr (fun a m => max a.id m) 0

/-- The row `add_articles` inserts for one entry. -/
def entryToArticle (newId : Nat) (e : Entry) : Article :=
  { id := newId
    title := e.title.map stripNewlines
    abstract := e.abstract.map stripNewlines
    note := e.note
    keywords := (e.keywords.map stripNewlines).map normalizeKeywords
    author := e.author.map stripNewlines
    year := e.year
    md5 := e.md5 }

/-- Model of `add_articles`: insert the entries one by one. -/
def add_articles (es : List Entry) (arts : List Article) : List Article :=
  match es with
  | [] => arts
  | e :: rest => add_articles rest (arts ++ [entryToArticle (maxId arts + 1) e])

/-- Model of `import_bibtex` on already-parsed entries: filter on title/abstract,
fingerprint, drop entries whose fingerprint is already in the `md5`
column, compute note paths, insert the rest.  `none` models a diverging
`_get_note_path` call. -/
def import_bibtex (hf : String → String) (entries : List Entry) (db : DB)
    (fuel : Nat) : Option DB :=
  let news := newEntries hf entries (get_md5s db.articles)
  match assignNotes db.articles fuel news with
  | none => none
  | some withNotes => some { db with articles := add_articles withNotes db.articles }

end LitWalk

namespace LitWalk

/-! ## Spec-side definitions and concrete instances used by the claims -/

/-- The exclusion rule of claim C2 taken literally: an entry is excluded
from insertion exactly when its fingerprint already occurs among
`existing`; every parsed entry takes part. -/
def claimNewEntries (hf : String → String) (entries : List Entry)
    (existing : List (Option String)) : List Entry :=
  entries.filter (fun e => decide (some (hf (hashText e)) ∉ existing))

/-- The sanitisation described by claim C6 as stated: spaces and
newlines replaced by underscores, characters other than word characters,
`-` and `.` removed (no trimming step). -/
def claimSanitize (s : String) : String :=
  String.mk ((replaceChar '\n' '_' (replaceChar ' ' '_' s)).data.filter keepChar)

/-- The note-path stem described by claim C6 as stated:
`<first author initial>/<FirstAuthor><year>_<title>` (or
`Unknown/<year>_<title>` without an author), sanitised per
`claimSanitize`. -/
def claimStem (e : Entry) : Option String :=
  match e.author with
  | some au =>
    let fa := pyCapitalize ((pySplit ',' au).headD "")
    match fa.data with
    | [] => none
    | c :: _ =>
      some (pathJoin (String.mk [c])
        (claimSanitize (fa ++ e.year.getD "" ++ "_" ++ e.title.getD "")))
  | none =>
    some (pathJoin "Unknown"
      (claimSanitize (e.year.getD "" ++ "_" ++ e.title.getD "")))

/-- Python `string.ascii_lowercase`. -/
def asciiLowercase : List Char := "abcdefghijklmnopqrstuvwxyz".data

/-- Claim C6 as stated, as a decidable predicate: the path is the
claim's base form, or that form with a single lowercase letter inserted
before the `.md` extension. -/
def claimFormOK (e : Entry) (p : String) : Bool :=
  match claimStem e with
  | none => false
  | some st =>
    decide (p = st ++ ".md") ||
      asciiLowercase.any (fun c => decide (p = st ++ String.mk [c, '.', 'm', 'd']))

/-- The sanitisation of the amended claim C6: as stated, but with
surrounding whitespace trimmed first (the code's `strip()`). -/
def amendedSanitize (s : String) : String :=
  String.mk ((replaceChar '\n' '_' (replaceChar ' ' '_' (pyStrip s))).data.filter
    keepChar)

/-- The note-path stem of the amended claim C6. -/
def amendedStem (e : Entry) : Option String :=
  match e.author with
  | some au =>
    let fa := pyCapitalize ((pySplit ',' au).headD "")
    match fa.data with
    | [] => none
    | c :: _ =>
      some (pathJoin (String.mk [c])
        (amendedSanitize (fa ++ e.year.getD "" ++ "_" ++ e.title.getD "")))
  | none =>
    some (pathJoin "Unknown"
      (amendedSanitize (e.year.getD "" ++ "_" ++ e.title.getD "")))

/-- Number of distinct matching articles, as claimed by C4 for
`num_included`. -/
def distinctMatches (search : String) (arts : List Article) : Nat :=
  (arts.filter (fun a => (searchFields a).any (fieldMatch search))).length

/-- Concrete entry for claim C2: an author but neither title nor
abstract. -/
def entC2 : Entry := { author := some "x" }

/-- Concrete entry for claim C5. -/
def entC5 : Entry := { title := some "t", author := some "smith" }

/-- Concrete table for claim C5: the entry's base note path and its
`'a'`-suffixed variant are both taken. -/
def artsC5 : List Article :=
  [{ id := 1, title := some "u", note := some "S/Smith_t.md" },
   { id := 2, title := some "v", note := some "S/Smith_ta.md" }]

/-- Concrete entry for claim C6: title with a trailing space. -/
def entC6 : Entry := { title := some "t ", author := some "smith" }

/-- Concrete entry for claim C7: keywords field with an interior
newline. -/
def entC7 : Entry := { title := some "t", keywords := some "a\nb" }

/-- Concrete article for claim C4: the search phrase occurs in two of
its fields. -/
def artC4 : Article := { id := 1, title := some "foo", abstract := some "foo" }

/-- Concrete database for claim C4. -/
def dbC4 : DB := ⟨[artC4], []⟩

/-- Concrete database for the walk witnesses: one article, id 1. -/
def dbW : DB := ⟨[{ id := 1, title := some "t" }], []⟩

/-- Concrete database for the C8 witness: two articles, ids 1 and 2. -/
def dbC8 : DB :=
  ⟨[{ id := 1, title := some "t" }, { id := 2, title := some "u" }], []⟩

/-- The empty database. -/
def dbEmpty : DB := ⟨[], []⟩

/-- The selection result produced by `get_random dbW 1`. -/
def rW : ArticleResult :=
  { article := { id := 1, title := some "t" }, num_included := 1, num_total := 1 }

/-- Concrete table for the C6 witness: only the base note path is
taken. -/
def artsC6 : List Article := [{ id := 1, title := some "u", note := some "S/Smith_t.md" }]

/-- Concrete entry for the C1/C2 witnesses. -/
def entW : Entry := { title := some "t" }

/-- Concrete entry for the C7 witness: a keyword list with mixed case
and a path-like keyword. -/
def entWK : Entry := { title := some "t", keywords := some "A;b/c" }

/-- The database produced by importing `entWK` into an empty database
(identity digest). -/
def dbWK : DB :=
  ⟨[{ id := 1, title := some "t", note := some "Unknown/_t.md",
      keywords := some "a", md5 := some "t" }], []⟩

/-- The database produced by importing `entW` into an empty database
(identity digest). -/
def dbW1 : DB :=
  ⟨[{ id := 1, title := some "t", note := some "Unknown/_t.md", md5 := some "t" }],
   []⟩

/-! ## Helper lemmas -/

/-- Lemma: `add_articles` appends rows; the inserted rows carry the entries'
`md5`, normalised `keywords`, `title`, `abstract` and `note` values. -/
theorem add_articles_append (es : List Entry) (arts : List Article) :
    ∃ suffix, add_articles es arts = arts ++ suffix ∧
      suffix.map (fun a => a.md5) = es.map (fun e => e.md5) ∧
      suffix.map (fun a => a.keywords) =
        es.map (fun e => (e.keywords.map stripNewlines).map normalizeKeywords) ∧
      suffix.map (fun a => a.title) = es.map (fun e => e.title.map stripNewlines) ∧
      suffix.map (fun a => a.abstract) =
        es.map (fun e => e.abstract.map stripNewlines) ∧
      ∀ a ∈ suffix, ∃ e ∈ es, ∃ k, a = entryToArticle k e := by
  induction es generalizing arts with
  | nil => exact ⟨[], by simp [add_articles]⟩
  | cons e rest ih =>
    obtain ⟨suffix, h1, h2, h3, h4, h5, h6⟩ :=
      ih (arts ++ [entryToArticle (maxId arts + 1) e])
    refine ⟨entryToArticle (maxId arts + 1) e :: suffix, ?_, ?_, ?_, ?_, ?_, ?_⟩
    · show add_articles rest (arts ++ [entryToArticle (maxId arts + 1) e]) = _
      rw [h1, List.append_assoc]
      rfl
    · simp [h2, entryToArticle]
    · simp [h3, entryToArticle]
    · simp [h4, entryToArticle]
    · simp [h5, entryToArticle]
    · intro a ha
      cases ha with
      | head => exact ⟨e, List.mem_cons_self e rest, maxId arts + 1, rfl⟩
      | tail _ ht =>
        obtain ⟨e', he', k, hk⟩ := h6 a ht
        exact ⟨e', List.mem_cons_of_mem e he', k, hk⟩

/-- Lemma: `assignNotes` only sets the `note` field: all other modelled fields
are preserved, position by position. -/
theorem assignNotes_fields (arts : List Article) (fuel : Nat) :
    ∀ es es', assignNotes arts fuel es = some es' →
      es'.map (fun e => e.md5) = es.map (fun e => e.md5) ∧
      es'.map (fun e => e.keywords) = es.map (fun e => e.keywords) ∧
      es'.map (fun e => e.title) = es.map (fun e => e.title) ∧
      es'.map (fun e => e.abstract) = es.map (fun e => e.abstract) ∧
      ∀ e' ∈ es', ∃ e ∈ es, ∃ p, e' = { e with note := some p } := by
  intro es
  induction es with
  | nil =>
    intro es' h
    simp [assignNotes] at h
    subst h
    simp
  | cons e rest ih =>
    intro es' h
    simp only [assignNotes] at h
    cases hp : get_note_path arts e fuel with
    | none => rw [hp] at h; exact absurd h (by simp)
    | some p =>
      rw [hp] at h
      cases hr : assignNotes arts fuel rest with
      | none => rw [hr] at h; exact absurd h (by simp)
      | some rest' =>
        rw [hr] at h
        obtain ⟨h2, h3, h4, h5, h6⟩ := ih rest' hr
        simp only [Option.some.injEq] at h
        subst h
        refine ⟨by simp [h2], by simp [h3], by simp [h4], by simp [h5], ?_⟩
        intro e' he'
        cases he' with
        | head => exact ⟨e, List.mem_cons_self e rest, p, rfl⟩
        | tail _ ht =>
          obtain ⟨e0, he0, p0, hp0⟩ := h6 e' ht
          exact ⟨e0, List.mem_cons_of_mem e he0, p0, hp0⟩

/-- The dedup filter commutes with the fingerprint assignment: the kept
entries are exactly the title-or-abstract entries whose fingerprint is
not yet in `existing`, each with its fingerprint attached. -/
theorem newEntries_eq (hf : String → String) (entries : List Entry)
    (existing : List (Option String)) :
    newEntries hf entries existing =
      ((keepTitled entries).filter
        (fun e => decide (some (hf (hashText e)) ∉ existing))).map
        (assignMd5 hf) := by
  unfold newEntries
  rw [List.filter_map]
  rfl

/-- Lemma: `countNote` is zero exactly when no stored article uses the path as
its `note` value. -/
theorem countNote_eq_zero_iff (arts : List Article) (p : String) :
    countNote arts p = 0 ↔ ∀ a ∈ arts, a.note ≠ some p := by
  unfold countNote
  rw [List.length_eq_zero, List.filter_eq_nil_iff]
  simp

/-- A successful run of the suffix loop returns the `'a'`-suffixed
path, and only when that path is unused. -/
theorem noteSuffixLoop_some (arts : List Article) (path : String) :
    ∀ fuel q, noteSuffixLoop arts path fuel = some q →
      q = reSubMdEnd 'a' path ∧ countNote arts q = 0 := by
  intro fuel
  induction fuel with
  | zero => intro q h; exact absurd h (by simp [noteSuffixLoop])
  | succ n ih =>
    intro q h
    simp only [noteSuffixLoop] at h
    by_cases hc : countNote arts (reSubMdEnd 'a' path) = 0
    · rw [if_pos hc] at h
      simp only [Option.some.injEq] at h
      subst h
      exact ⟨rfl, hc⟩
    · rw [if_neg hc] at h
      exact ih q h

/-- When the `'a'`-suffixed path is also taken, the suffix loop never
returns, whatever the fuel. -/
theorem noteSuffixLoop_none (arts : List Article) (path : String)
    (h : countNote arts (reSubMdEnd 'a' path) ≠ 0) :
    ∀ fuel, noteSuffixLoop arts path fuel = none := by
  intro fuel
  induction fuel with
  | zero => rfl
  | succ n ih => simp only [noteSuffixLoop, if_neg h]; exact ih

/-- Lemma: `re.sub(r"\.md$", c + ".md", x + ".md")` inserts `c` before the
extension. -/
theorem reSubMdEnd_append (c : Char) (x : String) :
    reSubMdEnd c (x ++ ".md") = x ++ String.mk [c, '.', 'm', 'd'] := by
  unfold reSubMdEnd
  have hdata : (x ++ (".md" : String)).data = x.data ++ ['.', 'm', 'd'] := by
    rw [String.data_append]
  rw [hdata]
  have hrev : (x.data ++ ['.', 'm', 'd']).reverse.take 3 = ['d', 'm', '.'] := by
    rw [List.reverse_append]
    exact List.take_left ['d', 'm', '.'] x.data.reverse
  rw [if_pos hrev]
  apply String.ext
  have hlen : (x.data ++ ['.', 'm', 'd']).length - 3 = x.data.length := by
    simp
  rw [hlen]
  have htake : (x.data ++ ['.', 'm', 'd']).take x.data.length = x.data :=
    List.take_left x.data ['.', 'm', 'd']
  rw [htake, String.data_append]

/-- Full characterisation of a successful `_get_note_path` run: the
returned path is unused, and is the stem with `".md"` appended, possibly
with the letter `'a'` inserted before the extension. -/
theorem get_note_path_some (arts : List Article) (e : Entry) (fuel : Nat)
    (p : String) (h : get_note_path arts e fuel = some p) :
    countNote arts p = 0 ∧
      ∃ st, noteStem e = some st ∧
        (p = st ++ ".md" ∨ p = st ++ String.mk ['a', '.', 'm', 'd']) := by
  unfold get_note_path baseNotePath at h
  cases hst : noteStem e with
  | none => rw [hst] at h; exact absurd h (by simp)
  | some st =>
    rw [hst] at h
    simp only [Option.map_some'] at h
    by_cases hc : countNote arts (st ++ ".md") = 0
    · rw [if_pos hc] at h
      simp only [Option.some.injEq] at h
      subst h
      exact ⟨hc, st, rfl, Or.inl rfl⟩
    · rw [if_neg hc] at h
      obtain ⟨hq, hz⟩ := noteSuffixLoop_some arts (st ++ ".md") fuel p h
      rw [reSubMdEnd_append] at hq
      exact ⟨hz, st, rfl, Or.inr hq⟩

/-- The amended-claim stem coincides with the code's stem. -/
theorem amendedStem_eq_noteStem (e : Entry) : amendedStem e = noteStem e := rfl

/-- Master lemma for a successful `import_bibtex` run: the activity
table is untouched, the articles table is extended by a suffix whose
rows carry the new entries' fingerprints and normalised fields. -/
theorem import_bibtex_some (hf : String → String) (entries : List Entry)
    (db : DB) (fuel : Nat) (db' : DB)
    (h : import_bibtex hf entries db fuel = some db') :
    db'.activity = db.activity ∧
    ∃ suffix, db'.articles = db.articles ++ suffix ∧
      suffix.map (fun a => a.md5) =
        (newEntries hf entries (get_md5s db.articles)).map (fun e => e.md5) ∧
      suffix.map (fun a => a.keywords) =
        (newEntries hf entries (get_md5s db.articles)).map
          (fun e => (e.keywords.map stripNewlines).map normalizeKeywords) ∧
      ∀ a ∈ suffix, ∃ e ∈ newEntries hf entries (get_md5s db.articles),
        ∃ p k, a = entryToArticle k { e with note := some p } := by
  unfold import_bibtex at h
  cases han : assignNotes db.articles fuel
      (newEntries hf entries (get_md5s db.articles)) with
  | none => simp only [han] at h; exact absurd h (by simp)
  | some withNotes =>
    simp only [han, Option.some.injEq] at h
    obtain ⟨hmd5, hkw, _, _, hmem⟩ :=
      assignNotes_fields db.articles fuel
        (newEntries hf entries (get_md5s db.articles)) withNotes han
    obtain ⟨suffix, h1, h2, h3, _, _, h6⟩ :=
      add_articles_append withNotes db.articles
    have hact : db'.activity = db.activity := by rw [← h]
    have harts : db'.articles = db.articles ++ suffix := by rw [← h]; exact h1
    refine ⟨hact, suffix, harts, ?_, ?_, ?_⟩
    · rw [h2, hmd5]
    · rw [h3]
      have hx : withNotes.map
            (fun e => (e.keywords.map stripNewlines).map normalizeKeywords) =
          (withNotes.map (fun e => e.keywords)).map
            (fun o => (o.map stripNewlines).map normalizeKeywords) := by
        rw [List.map_map]
        rfl
      rw [hx, hkw, List.map_map]
      rfl
    · intro a ha
      obtain ⟨e', he', k, hk⟩ := h6 a ha
      obtain ⟨e0, he0, p0, hp0⟩ := hmem e' he'
      exact ⟨e0, he0, p0, k, by rw [hk, hp0]⟩

/-- In a table whose ids are pairwise distinct, filtering on a present
id yields a one-element list. -/
theorem filter_id_singleton (arts : List Article) (i : Nat)
    (hnodup : (arts.map (fun a => a.id)).Nodup)
    (hmem : i ∈ arts.map (fun a => a.id)) :
    ∃ a, selectById arts i = [a] ∧ a.id = i := by
  induction arts with
  | nil => simp at hmem
  | cons b t ih =>
    rw [List.map_cons, List.nodup_cons] at hnodup
    by_cases hb : b.id = i
    · have hnone : ∀ a ∈ t, ¬ a.id = i := by
        intro a ha hai
        exact hnodup.1 (by rw [hb, ← hai]; exact List.mem_map_of_mem _ ha)
      refine ⟨b, ?_, hb⟩
      unfold selectById
      rw [List.filter_cons_of_pos (by simp [hb])]
      have : t.filter (fun a => decide (a.id = i)) = [] :=
        List.filter_eq_nil_iff.mpr (by intro a ha; simp [hnone a ha])
      rw [this]
    · have hmem' : i ∈ t.map (fun a => a.id) := by
        cases List.mem_cons.mp hmem with
        | inl h0 => exact absurd h0.symm hb
        | inr h0 => exact h0
      obtain ⟨a, ha1, ha2⟩ := ih hnodup.2 hmem'
      refine ⟨a, ?_, ha2⟩
      unfold selectById at ha1 ⊢
      rw [List.filter_cons_of_neg (by simp [hb]), ha1]

/-- Lemma: `walk` with the empty search phrase delegates to `get_random`. -/
theorem walk_empty_search (db : DB) (ind : Nat) :
    walk db "" ind =
      match get_random db ind with
      | Except.error e => (Except.error e, db)
      | Except.ok r => (Except.ok r, update_activity db r.article.id ACTIVITY_WALK) :=
  rfl

/-! ## The claims -/

/-- Claim C10: (confirmed).  `import_bibtex` never inserts an entry that
lacks both a `title` and an `abstract` field: an entry proceeds to the
fingerprint/deduplication pipeline (`keepTitled`) exactly when one of
the two fields is present, and every row a successful import appends to
the articles table has a title or an abstract. -/
theorem C10_title_abstract_guard (hf : String → String) (entries : List Entry)
    (db : DB) (fuel : Nat) (db' : DB)
    (h : import_bibtex hf entries db fuel = some db') :
    (∀ e ∈ entries,
      ((e.title.isSome || e.abstract.isSome) = true ↔ e ∈ keepTitled entries)) ∧
    ∃ suffix, db'.articles = db.articles ++ suffix ∧
      ∀ a ∈ suffix, a.title.isSome = true ∨ a.abstract.isSome = true := by
  obtain ⟨-, suffix, harts, -, -, hmem⟩ :=
    import_bibtex_some hf entries db fuel db' h
  refine ⟨?_, suffix, harts, ?_⟩
  · intro e he
    exact ⟨fun hp => List.mem_filter.mpr ⟨he, hp⟩,
           fun hm => (List.mem_filter.mp hm).2⟩
  · intro a ha
    obtain ⟨e0, he0, p, k, hk⟩ := hmem a ha
    obtain ⟨e1, he1, hassign⟩ :=
      List.mem_map.mp (List.mem_filter.mp he0).1
    have ht : (e1.title.isSome || e1.abstract.isSome) = true :=
      (List.mem_filter.mp he1).2
    rw [hk, ← hassign]
    cases Bool.or_eq_true_iff.mp ht with
    | inl h1 =>
      left
      simp [entryToArticle, assignMd5, Option.isSome_map', h1]
    | inr h1 =>
      right
      simp [entryToArticle, assignMd5, Option.isSome_map', h1]

/-- Claim C10 witness:: a concrete import run exercising the guard. -/
theorem C10_witness :
    (∀ e ∈ [entW],
      ((e.title.isSome || e.abstract.isSome) = true ↔ e ∈ keepTitled [entW])) ∧
    ∃ suffix, dbW1.articles = dbEmpty.articles ++ suffix ∧
      ∀ a ∈ suffix, a.title.isSome = true ∨ a.abstract.isSome = true :=
  C10_title_abstract_guard (fun s => s) [entW] dbEmpty 1 dbW1 rfl

/-- Claim C2 counterexample:.  The claim says entries are excluded from
insertion *exactly* when their fingerprint is already in the `md5`
column, all others being inserted.  The entry `entC2` (an author but
neither title nor abstract) has a fresh fingerprint over the empty
database, yet the code inserts nothing: the title/abstract guard
excludes it before fingerprinting (the schema's `title NOT NULL` would
reject it anyway).  `claimNewEntries` is the claim's literal exclusion
rule, which keeps the entry. -/
theorem C2_counterexample :
    import_bibtex (fun s => s) [entC2] dbEmpty 1 = some dbEmpty ∧
    claimNewEntries (fun s => s) [entC2] (get_md5s dbEmpty.articles) = [entC2] :=
  ⟨rfl, rfl⟩

/-- Claim C2 amended: (proved): among the entries that have a title or an
abstract, `import_bibtex` excludes exactly those whose fingerprint
`hf (title ++ abstract)` already occurs in the `md5` column at the start
of the import, and inserts all the others, in order, storing the
fingerprint in the new rows' `md5` column. -/
theorem C2_fingerprint_dedup (hf : String → String) (entries : List Entry)
    (db : DB) (fuel : Nat) (db' : DB)
    (h : import_bibtex hf entries db fuel = some db') :
    ∃ suffix, db'.articles = db.articles ++ suffix ∧
      suffix.map (fun a => a.md5) =
        ((keepTitled entries).filter
          (fun e => decide (some (hf (hashText e)) ∉ get_md5s db.articles))).map
          (fun e => some (hf (hashText e))) := by
  obtain ⟨-, suffix, harts, hmd5, -, -⟩ :=
    import_bibtex_some hf entries db fuel db' h
  refine ⟨suffix, harts, ?_⟩
  rw [hmd5, newEntries_eq, List.map_map]
  rfl

/-- Claim C2 witness:: one fresh entry is inserted with its fingerprint. -/
theorem C2_fingerprint_witness :
    ∃ suffix, dbW1.articles = dbEmpty.articles ++ suffix ∧
      suffix.map (fun a => a.md5) =
        ((keepTitled [entW]).filter
          (fun e => decide (some ((fun s => s) (hashText e)) ∉
            get_md5s dbEmpty.articles))).map
          (fun e => some ((fun s => s) (hashText e))) :=
  C2_fingerprint_dedup (fun s => s) [entW] dbEmpty 1 dbW1 rfl

/-- Claim C1: (confirmed).  Import is idempotent: after a successful import
of a BibTeX file, importing the same entries again (any fuel) inserts
nothing and leaves the database exactly as it was. -/
theorem C1_import_idempotent (hf : String → String) (entries : List Entry)
    (db db' : DB) (fuel fuel' : Nat)
    (h : import_bibtex hf entries db fuel = some db') :
    import_bibtex hf entries db' fuel' = some db' := by
  obtain ⟨-, suffix, harts, hmd5, -, -⟩ :=
    import_bibtex_some hf entries db fuel db' h
  have hnews : newEntries hf entries (get_md5s db'.articles) = [] := by
    unfold newEntries
    apply List.filter_eq_nil_iff.mpr
    intro x hx
    simp only [decide_eq_true_eq]
    intro hnot
    apply hnot
    rw [harts]
    unfold get_md5s
    rw [List.map_append]
    by_cases hin : x.md5 ∈ get_md5s db.articles
    · exact List.mem_append_left _ hin
    · apply List.mem_append_right
      have hxnew : x ∈ newEntries hf entries (get_md5s db.articles) :=
        List.mem_filter.mpr ⟨hx, by simp [hin]⟩
      have hx5 : x.md5 ∈
          (newEntries hf entries (get_md5s db.articles)).map (fun e => e.md5) :=
        List.mem_map_of_mem _ hxnew
      rw [← hmd5] at hx5
      exact hx5
  unfold import_bibtex
  simp only [hnews, assignNotes]
  rfl

/-- Claim C1 witness:: a second import of the same file is a no-op. -/
theorem C1_witness : import_bibtex (fun s => s) [entW] dbW1 2 = some dbW1 :=
  C1_import_idempotent (fun s => s) [entW] dbEmpty dbW1 1 2 rfl

/-- Claim C7 counterexample:.  The claim computes the stored keywords
directly from the raw keywords field by split/strip/lowercase/join
(that formula is exactly `normalizeKeywords`).  But `add_articles`
first replaces newlines by spaces in the whole field; for the keywords
value `"a\nb"` the claim's formula yields `"a\nb"` (an interior newline
survives `strip`) while the code stores `"a b"`. -/
theorem C7_counterexample :
    (import_bibtex (fun s => s) [entC7] dbEmpty 1).map
        (fun db => db.articles.map (fun a => a.keywords)) = some [some "a b"] ∧
    normalizeKeywords "a\nb" = "a\nb" ∧
    (some "a b" : Option String) ≠ some "a\nb" :=
  ⟨rfl, rfl, by decide⟩

/-- Claim C7 amended: (proved): for every imported article whose keywords
field is non-null, the stored keywords value is the `"; "`-join, in
original order, of the `";"`-separated keywords of the field *after
replacing newlines by spaces*, each stripped of surrounding whitespace
and lowercased, keywords containing `"/"` omitted. -/
theorem C7_keywords_normalised (hf : String → String) (entries : List Entry)
    (db : DB) (fuel : Nat) (db' : DB)
    (h : import_bibtex hf entries db fuel = some db') :
    ∃ suffix, db'.articles = db.articles ++ suffix ∧
      suffix.map (fun a => a.keywords) =
        (newEntries hf entries (get_md5s db.articles)).map
          (fun e => e.keywords.map (fun s => normalizeKeywords (stripNewlines s))) := by
  obtain ⟨-, suffix, harts, -, hkw, -⟩ :=
    import_bibtex_some hf entries db fuel db' h
  refine ⟨suffix, harts, ?_⟩
  rw [hkw]
  simp only [Option.map_map]
  rfl

/-- Claim C7 witness:: keyword normalisation on a concrete import. -/
theorem C7_keywords_witness :
    ∃ suffix, dbWK.articles = dbEmpty.articles ++ suffix ∧
      suffix.map (fun a => a.keywords) =
        (newEntries (fun s => s) [entWK] (get_md5s dbEmpty.articles)).map
          (fun e => e.keywords.map (fun s => normalizeKeywords (stripNewlines s))) :=
  C7_keywords_normalised (fun s => s) [entWK] dbEmpty 1 dbWK rfl

/-- Claim C3: (confirmed).  `walk(search)` returns `get_random()` when the
search phrase is empty and `get_filtered(search)` otherwise, and, when
the selection succeeds, appends exactly one row to the activity table
whose `entity_id` is the selected article's id and whose action code is
`ACTIVITY_WALK = 5`; the articles table is untouched. -/
theorem C3_walk_logs (db : DB) (search : String) (rnd : Nat)
    (r : ArticleResult) (h : (walk db search rnd).1 = Except.ok r) :
    (walk db search rnd).1 =
      (if search = "" then get_random db rnd else get_filtered db search rnd) ∧
    (walk db search rnd).2.articles = db.articles ∧
    (walk db search rnd).2.activity =
      db.activity ++ [⟨r.article.id, ACTIVITY_WALK⟩] ∧
    ACTIVITY_WALK = 5 := by
  cases hs : (if search = "" then get_random db rnd else get_filtered db search rnd) with
  | error err =>
    have hw : walk db search rnd = (Except.error err, db) := by
      unfold walk
      rw [hs]
    rw [hw] at h
    exact absurd h (by simp)
  | ok r0 =>
    have hw : walk db search rnd =
        (Except.ok r0, update_activity db r0.article.id ACTIVITY_WALK) := by
      unfold walk
      rw [hs]
    rw [hw] at h
    have hr : r0 = r := Except.ok.inj h
    subst hr
    rw [hw]
    exact ⟨rfl, rfl, rfl, rfl⟩

/-- Claim C3 witness:: a concrete walk on a one-article database. -/
theorem C3_walk_witness :
    (walk dbW "" 1).1 =
      (if ("" : String) = "" then get_random dbW 1 else get_filtered dbW "" 1) ∧
    (walk dbW "" 1).2.articles = dbW.articles ∧
    (walk dbW "" 1).2.activity = dbW.activity ++ [⟨rW.article.id, ACTIVITY_WALK⟩] ∧
    ACTIVITY_WALK = 5 :=
  C3_walk_logs dbW "" 1 rW rfl

/-- Claim C9: (confirmed).  `get_random` raises the exception
`"No articles found!"` exactly when the articles table is empty (any
other failure is a different exception), and when `walk("")` fails this
way the database state is unchanged: no activity row is appended. -/
theorem C9_error_iff_empty (db : DB) (ind : Nat) :
    (get_random db ind = Except.error "No articles found!" ↔ db.articles = []) ∧
    ((walk db "" ind).1 = Except.error "No articles found!" →
      (walk db "" ind).2 = db) := by
  constructor
  · constructor
    · intro h
      unfold get_random at h
      by_cases hn : num_articles db = 0
      · exact List.length_eq_zero.mp hn
      · rw [if_neg hn] at h
        cases hsel : selectById db.articles ind with
        | nil =>
          rw [hsel] at h
          exact absurd (Except.error.inj h) (by decide)
        | cons a t =>
          rw [hsel] at h
          exact absurd h (by simp)
    · intro h
      unfold get_random
      have hn : num_articles db = 0 := by
        unfold num_articles
        rw [h]
        rfl
      rw [if_pos hn]
  · intro h
    cases hg : get_random db ind with
    | error e =>
      rw [walk_empty_search, hg]
    | ok r =>
      rw [walk_empty_search, hg] at h
      exact absurd h (by simp)

/-- Claim C9 witness:: the empty database. -/
theorem C9_witness :
    (get_random dbEmpty 1 = Except.error "No articles found!" ↔
      dbEmpty.articles = []) ∧
    ((walk dbEmpty "" 1).1 = Except.error "No articles found!" →
      (walk dbEmpty "" 1).2 = dbEmpty) :=
  C9_error_iff_empty dbEmpty 1

/-- Claim C4 counterexample:.  The claim says `num_included` equals the
number of *distinct* matching articles.  In `get_filtered` the inner
field loop appends the article once per matching field, so an article
whose title and abstract both contain the phrase is counted twice:
on `dbC4` (one article, `"foo"` in both fields) the code reports
`num_included = 2` while exactly one distinct article matches. -/
theorem C4_counterexample :
    get_filtered dbC4 "foo" 0 =
      Except.ok { article := artC4, num_included := 2, num_total := 1 } ∧
    distinctMatches (pyLower "foo") dbC4.articles = 1 :=
  ⟨rfl, rfl⟩

/-- Claim C4 amended: (proved): when `get_filtered` succeeds, the returned
article is one of the stored articles and contains the lowercased
phrase in at least one of its abstract, author, keywords or title
fields; `num_included` is the number of (article, field) matching pairs
— each matching article counted once per matching field — and
`num_total` is the total number of articles. -/
theorem C4_filtered_matches (db : DB) (search : String) (k : Nat)
    (r : ArticleResult) (h : get_filtered db search k = Except.ok r) :
    r.article ∈ db.articles ∧
    (∃ f ∈ searchFields r.article, fieldMatch (pyLower search) f = true) ∧
    r.num_included =
      (db.articles.map
        (fun a => ((searchFields a).filter (fieldMatch (pyLower search))).length)).sum ∧
    r.num_total = db.articles.length := by
  unfold get_filtered at h
  cases hget : (filteredList (pyLower search) db.articles).get? k with
  | none =>
    simp only [hget] at h
    exact absurd h (by simp)
  | some a =>
    simp only [hget] at h
    have hr : r = { article := a
                    num_included := (filteredList (pyLower search) db.articles).length
                    num_total := db.articles.length } :=
      (Except.ok.inj h).symm
    subst hr
    have hmem : a ∈ filteredList (pyLower search) db.articles :=
      List.get?_mem hget
    unfold filteredList at hmem
    rw [List.mem_flatten] at hmem
    obtain ⟨l, hl, hal⟩ := hmem
    obtain ⟨art, hart, hla⟩ := List.mem_map.mp hl
    rw [← hla] at hal
    obtain ⟨f, hf, hfa⟩ := List.mem_map.mp hal
    have ha : art = a := hfa
    subst ha
    refine ⟨hart, ⟨f, (List.mem_filter.mp hf).1, (List.mem_filter.mp hf).2⟩, ?_, rfl⟩
    show (filteredList (pyLower search) db.articles).length = _
    unfold filteredList
    rw [List.length_flatten, List.map_map]
    congr 1
    apply List.map_congr_left
    intro b _
    simp

/-- Claim C4 witness:: the double-matching article of `dbC4`. -/
theorem C4_filtered_witness :
    artC4 ∈ dbC4.articles ∧
    (∃ f ∈ searchFields artC4, fieldMatch (pyLower "foo") f = true) ∧
    (2 : Nat) =
      (dbC4.articles.map
        (fun a => ((searchFields a).filter (fieldMatch (pyLower "foo"))).length)).sum ∧
    (1 : Nat) = dbC4.articles.length :=
  C4_filtered_matches dbC4 "foo" 0 ⟨artC4, 2, 1⟩ rfl

/-- Claim C8: (confirmed).  When the articles table is non-empty with ids
exactly `1..N` and the drawn index is in `[1, N]`, `get_random` cannot
fail: the id lookup returns exactly one row, and the result reports
`num_included = num_total = N`. -/
theorem C8_get_random_safe (db : DB) (ind : Nat)
    (hperm : (db.articles.map (fun a => a.id)).Perm
      (List.range' 1 db.articles.length))
    (h1 : 1 ≤ ind) (h2 : ind ≤ db.articles.length) :
    ∃ a, selectById db.articles ind = [a] ∧
      get_random db ind =
        Except.ok { article := a, num_included := db.articles.length,
                    num_total := db.articles.length } := by
  have hnodup : (db.articles.map (fun a => a.id)).Nodup :=
    hperm.nodup_iff.mpr (List.nodup_range' 1 db.articles.length 1 (by decide))
  have hmem : ind ∈ db.articles.map (fun a => a.id) :=
    hperm.mem_iff.mpr (List.mem_range'_1.mpr ⟨h1, by omega⟩)
  obtain ⟨a, hsel, -⟩ := filter_id_singleton db.articles ind hnodup hmem
  have hn0 : ¬ num_articles db = 0 := by
    unfold num_articles
    omega
  refine ⟨a, hsel, ?_⟩
  unfold get_random
  rw [if_neg hn0, hsel]
  rfl

/-- Claim C8 witness:: a two-article table with ids 1, 2. -/
theorem C8_witness :
    ∃ a, selectById dbC8.articles 2 = [a] ∧
      get_random dbC8 2 =
        Except.ok { article := a, num_included := dbC8.articles.length,
                    num_total := dbC8.articles.length } :=
  C8_get_random_safe dbC8 2 (by decide) (by decide) (by decide)

/-- Claim C5: (the code diverges).  With the base note path
`"S/Smith_t.md"` and its `'a'`-suffixed variant both already used as
note values (`artsC5`), `_get_note_path` never terminates on `entC5`:
the loop index `i` is never incremented, so every iteration re-checks
the same suffixed path.  In the fuel model the call fails for every
fuel value. -/
theorem C5_note_path_diverges :
    ∀ fuel, get_note_path artsC5 entC5 fuel = none := by
  intro fuel
  have hbase : get_note_path artsC5 entC5 fuel =
      (if countNote artsC5 "S/Smith_t.md" = 0 then some "S/Smith_t.md"
       else noteSuffixLoop artsC5 "S/Smith_t.md" fuel) := rfl
  rw [hbase, if_neg (by decide)]
  exact noteSuffixLoop_none artsC5 "S/Smith_t.md" (by decide) fuel

/-- Claim C6 counterexample:.  The claim's path form omits the code's
`strip()` step: for a title with a trailing space (`entC6`, over the
empty database) the code strips first and returns `"S/Smith_t.md"`,
which matches neither the claim's base form `"S/Smith_t_.md"` nor any
single-letter-suffixed variant of it. -/
theorem C6_counterexample :
    get_note_path [] entC6 1 = some "S/Smith_t.md" ∧
    claimFormOK entC6 "S/Smith_t.md" = false := by
  decide

/-- Claim C6 amended: (proved): whenever `_get_note_path` terminates, the
returned path is used by no stored article, and equals the amended-claim
stem (first-author-initial directory — or `Unknown` —, capitalised
first author, year and title, surrounding whitespace trimmed, spaces
and newlines replaced by underscores, other non-word characters except
`-` and `.` removed) with the `".md"` extension, possibly with a single
lowercase letter inserted before the extension. -/
theorem C6_collision_safe (arts : List Article) (e : Entry) (fuel : Nat)
    (p : String) (h : get_note_path arts e fuel = some p) :
    (∀ a ∈ arts, a.note ≠ some p) ∧
    ∃ st, amendedStem e = some st ∧
      (p = st ++ ".md" ∨
        ∃ c, c ∈ asciiLowercase ∧ p = st ++ String.mk [c, '.', 'm', 'd']) := by
  obtain ⟨hcount, st, hst, hform⟩ := get_note_path_some arts e fuel p h
  refine ⟨(countNote_eq_zero_iff arts p).mp hcount, st, ?_, ?_⟩
  · rw [amendedStem_eq_noteStem]
    exact hst
  · cases hform with
    | inl h1 => exact Or.inl h1
    | inr h2 => exact Or.inr ⟨'a', by decide, h2⟩

/-- Claim C6 witness:: a run that takes the suffix branch. -/
theorem C6_collision_witness :
    (∀ a ∈ artsC6, a.note ≠ some "S/Smith_ta.md") ∧
    ∃ st, amendedStem entC5 = some st ∧
      ("S/Smith_ta.md" = st ++ ".md" ∨
        ∃ c, c ∈ asciiLowercase ∧
          "S/Smith_ta.md" = st ++ String.mk [c, '.', 'm', 'd']) :=
  C6_collision_safe artsC6 entC5 5 "S/Smith_ta.md" (by decide)

end LitWalk

namespace LitWalk

section SanityChecks

example : pySplit ';' "a;;b" = ["a", "", "b"] := by decide

example : pySplit ';' "" = [""] := by decide

example : pyJoin "; " ["a", "b"] = "a; b" := by decide

example : pyCapitalize "smith" = "Smith" := by decide

example : pyStrip "  a b\n" = "a b" := by decide

example : pyInStr "foo" "a foon" = true := by decide

example : pathJoin "S" "Smith_t" = "S/Smith_t" := by decide

example :
    get_note_path [] { title := some "t", author := some "smith" } 1 =
      some "S/Smith_t.md" := by decide

example :
    get_note_path
      [{ id := 1, note := some "S/Smith_t.md" }]
      { title := some "t", author := some "smith" } 5 =
      some "S/Smith_ta.md" := by decide

example :
    get_note_path
      [{ id := 1, note := some "S/Smith_t.md" },
       { id := 2, note := some "S/Smith_ta.md" }]
      { title := some "t", author := some "smith" } 50 = none := by decide

example :
    (import_bibtex (fun s => s) [{ title := some "t" }] ⟨[], []⟩ 1).map
        (fun db => db.articles) =
      some [{ id := 1, title := some "t", note := some "Unknown/_t.md",
              md5 := some "t" }] := by decide

example : normalizeKeywords "Apple; b/C ;D d" = "apple; d d" := by decide

example :
    get_filtered ⟨[{ id := 1, title := some "Foo", abstract := some "a foo b" }], []⟩
        "FOO" 1 =
      Except.ok { article := { id := 1, title := some "Foo", abstract := some "a foo b" },
                  num_included := 2, num_total := 1 } := rfl

end SanityChecks

end LitWalk
